import Mathlib

/-!
Verification of the portfolio aggregation engine and the GWP dimensional
tree builder of the product-intelligence repository.

Embedded source:
  * `compute_portfolio_summary` from backend/api/routes/portfolios.py
  * `get_member_gwp_tree` (and its inner `build_node`) from
    backend/services/member_import.py

Modelling conventions:
  * Python `Decimal` values are modelled as exact rationals (`ℚ`).
  * Python `None` is modelled via `Option`.
  * `decimal.Decimal(s)` applied to a string raises
    `decimal.InvalidOperation` on a malformed literal.  `InvalidOperation`
    derives from `ArithmeticError`, not from `ValueError`/`TypeError`, so
    the `except (ValueError, TypeError)` clauses in
    `compute_portfolio_summary` do NOT catch it: the exception escapes the
    function.  The embedding therefore returns `Except DecError _`, with
    `DecError.invalidOperation` marking the escaping exception.
  * The string grammar accepted by our `parseDecimal` is the core of the
    `Decimal` literal grammar (optional sign, digits with one optional
    fractional point, optional exponent).  The exotic non-finite literals
    (`NaN`, `Infinity`) and surrounding whitespace/underscores are outside
    the inputs any claim exercises and are treated as parse failures.
  * The tree builder serialises each node's `total_gwp` through `str`;
    `str` on `Decimal` is injective, so the numeric invariants are stated
    on the underlying values.
-/

/-- A non-`None` Python scalar sitting in the extracted-data mapping:
either a string or a numeric value (int / Decimal). -/
inductive PyScalar where
  | s (str : String)
  | num (q : ℚ)
deriving Repr, DecidableEq

/-- Python truthiness of a scalar: `""` and `0` are falsy. -/
def PyScalar.truthy : PyScalar → Bool
  | .s str => str ≠ ""
  | .num q => q ≠ 0

/-- One entry of the `extracted_data` JSON mapping for a given key, as
read by `extracted.get(key, {})`:
  * `missing`  — key absent (the `{}` default, which is a dict);
  * `scalar v` — a bare non-dict value;
  * `obj v`    — a dict, whose `"value"` sub-field is `v` (`none` when the
    sub-field is absent or is Python `None`). -/
inductive FieldEntry where
  | missing
  | scalar (v : PyScalar)
  | obj (v : Option PyScalar)
deriving Repr, DecidableEq

/-- The unwrap step of `compute_portfolio_summary`:
`field.get("value") if isinstance(field, dict) else field`. -/
def FieldEntry.unwrap : FieldEntry → Option PyScalar
  | .missing => none
  | .scalar v => some v
  | .obj v => v

/-- The two keys of `extracted_data` that `compute_portfolio_summary`
reads. -/
structure ExtractedData where
  max_annual_premium : FieldEntry
  max_limits_of_liability : FieldEntry
deriving Repr, DecidableEq

/-- The `{}` fallback of `authority.extracted_data or {}`. -/
def emptyExtracted : ExtractedData := ⟨.missing, .missing⟩

/-- Fields of a `gwp_breakdown` row used by the aggregator. -/
structure GWPBreakdown where
  total_gwp : Option ℚ
  loss_ratio : Option ℚ
deriving Repr, DecidableEq

/-- Fields of an `Authority` used by the aggregator. -/
structure Authority where
  gwp_breakdown : Option GWPBreakdown
  extracted_data : Option ExtractedData
deriving Repr, DecidableEq

/-- Fields of a `PortfolioItem` used by the aggregator. -/
structure PortfolioItem where
  allocation_pct : Option ℚ
  authority : Option Authority
deriving Repr, DecidableEq

/-- The `PortfolioSummary` pydantic schema with its field defaults. -/
structure PortfolioSummary where
  total_premium : ℚ := 0
  max_annual_premium : ℚ := 0
  avg_loss_ratio : Option ℚ := none
  avg_limit : Option ℚ := none
  growth_potential_pct : Option ℚ := none
  total_allocation : ℚ := 0
deriving Repr, DecidableEq

/-- The exception escaping `compute_portfolio_summary`:
`decimal.InvalidOperation` raised by `Decimal(<malformed string>)`,
uncaught because it is not a `ValueError` or `TypeError`. -/
inductive DecError where
  | invalidOperation
deriving Repr, DecidableEq

/-- Value of a digit run. -/
def natOfDigits (cs : List Char) : Nat :=
  cs.foldl (fun a c => a * 10 + (c.toNat - 48)) 0

/-- Parse an optional sign character. -/
def parseSign : List Char → ℚ × List Char
  | '+' :: r => (1, r)
  | '-' :: r => (-1, r)
  | cs => (1, cs)

/-- Parse the exponent tail after the mantissa: either nothing, or
`e`/`E` followed by an optionally signed nonempty digit run consuming the
whole remainder. -/
def parseExponent : List Char → Option ℤ
  | [] => some 0
  | c :: r =>
    if c = 'e' ∨ c = 'E' then
      let (sgn, r') := parseSign r
      let ds := r'.takeWhile Char.isDigit
      let rest := r'.dropWhile Char.isDigit
      if ds ≠ [] ∧ rest = [] then
        some ((if sgn = 1 then 1 else -1) * (natOfDigits ds : ℤ))
      else none
    else none

/-- Core of the `decimal.Decimal` string constructor grammar:
`[sign] (digits [. digits] | . digits) [(e|E) [sign] digits]`.
Returns the exact rational value, or `none` on a malformed literal
(in Python: raises `decimal.InvalidOperation`). -/
def parseDecimal (str : String) : Option ℚ :=
  let cs := str.toList
  let (sgn, cs) := parseSign cs
  let intPart := cs.takeWhile Char.isDigit
  let rest := cs.dropWhile Char.isDigit
  let (fracPart, rest') :=
    match rest with
    | '.' :: r => (r.takeWhile Char.isDigit, r.dropWhile Char.isDigit)
    | _ => ([], rest)
  if intPart = [] ∧ fracPart = [] then none
  else
    match parseExponent rest' with
    | none => none
    | some e =>
      some (sgn * (natOfDigits (intPart ++ fracPart) : ℚ)
        / (10 : ℚ) ^ fracPart.length * (10 : ℚ) ^ e)

/-- The `str(val).replace(",", "").replace("$", "")` step: removing every comma
and then every dollar sign equals one pass dropping both characters. -/
def stripSeparators (str : String) : String :=
  ⟨str.toList.filter (fun c => ¬ (c = ',' ∨ c = '$'))⟩

/-- The `Decimal(str(val).replace(",", "").replace("$", ""))` call: a numeric
scalar round-trips through `str` exactly (its rendering contains no comma
or dollar sign); a string scalar is stripped and parsed. -/
def PyScalar.parse : PyScalar → Option ℚ
  | .num q => some q
  | .s str => parseDecimal (stripSeparators str)

/-- The mutable locals of the aggregation loop in
`compute_portfolio_summary`. -/
structure SummaryAcc where
  total_premium : ℚ
  max_annual_premium : ℚ
  total_allocation : ℚ
  weighted_loss_ratio_sum : ℚ
  weighted_limit_sum : ℚ
  loss_ratio_weight : ℚ
  limit_weight : ℚ
deriving Repr, DecidableEq

/-- All accumulators start at `Decimal("0")`. -/
def initAcc : SummaryAcc := ⟨0, 0, 0, 0, 0, 0, 0⟩

/-- The `if gwp:` block: premium and loss-ratio accumulation. -/
def gwpStep (allocation : ℚ) (acc : SummaryAcc) :
    Option GWPBreakdown → SummaryAcc
  | none => acc
  | some gwp =>
    let premium := gwp.total_gwp.getD 0
    let acc := { acc with
      total_premium := acc.total_premium + premium * allocation / 100 }
    match gwp.loss_ratio with
    | some lr => { acc with
        weighted_loss_ratio_sum := acc.weighted_loss_ratio_sum + lr * allocation,
        loss_ratio_weight := acc.loss_ratio_weight + allocation }
    | none => acc

/-- The `max_annual_premium` extracted-field block.  A truthy value whose
parse fails raises `InvalidOperation`, which the surrounding
`except (ValueError, TypeError)` does not catch. -/
def maxPremiumStep (allocation : ℚ) (acc : SummaryAcc)
    (entry : FieldEntry) : Except DecError SummaryAcc :=
  match entry.unwrap with
  | none => .ok acc
  | some v =>
    if v.truthy then
      match v.parse with
      | some q => .ok { acc with
          max_annual_premium := acc.max_annual_premium + q * allocation / 100 }
      | none => .error .invalidOperation
    else .ok acc

/-- The `max_limits_of_liability` extracted-field block (weight is the raw
percentage, not divided by 100). -/
def maxLimitStep (allocation : ℚ) (acc : SummaryAcc)
    (entry : FieldEntry) : Except DecError SummaryAcc :=
  match entry.unwrap with
  | none => .ok acc
  | some v =>
    if v.truthy then
      match v.parse with
      | some q => .ok { acc with
          weighted_limit_sum := acc.weighted_limit_sum + q * allocation,
          limit_weight := acc.limit_weight + allocation }
      | none => .error .invalidOperation
    else .ok acc

/-- One iteration of the `for item in items:` loop. -/
def processItem (acc : SummaryAcc) (item : PortfolioItem) :
    Except DecError SummaryAcc :=
  let allocation := item.allocation_pct.getD 0
  let acc := { acc with total_allocation := acc.total_allocation + allocation }
  match item.authority with
  | none => .ok acc
  | some authority =>
    let acc := gwpStep allocation acc authority.gwp_breakdown
    let extracted := authority.extracted_data.getD emptyExtracted
    match maxPremiumStep allocation acc extracted.max_annual_premium with
    | .error e => .error e
    | .ok acc => maxLimitStep allocation acc extracted.max_limits_of_liability

/-- The tail of `compute_portfolio_summary`: derived weighted averages,
growth potential, and assembly of the `PortfolioSummary`. -/
def finishSummary (acc : SummaryAcc) : PortfolioSummary :=
  let avg_loss_ratio :=
    if acc.loss_ratio_weight > 0 then
      some (acc.weighted_loss_ratio_sum / acc.loss_ratio_weight)
    else none
  let avg_limit :=
    if acc.limit_weight > 0 then
      some (acc.weighted_limit_sum / acc.limit_weight)
    else none
  let growth_potential_pct :=
    if acc.max_annual_premium > 0 then
      some ((acc.max_annual_premium - acc.total_premium)
        / acc.max_annual_premium * 100)
    else none
  { total_premium := acc.total_premium,
    max_annual_premium := acc.max_annual_premium,
    avg_loss_ratio := avg_loss_ratio,
    avg_limit := avg_limit,
    growth_potential_pct := growth_potential_pct,
    total_allocation := acc.total_allocation }

/-- The function `compute_portfolio_summary(items, db)` — the `db` parameter is unused
by the function body. -/
def compute_portfolio_summary (items : List PortfolioItem) :
    Except DecError PortfolioSummary :=
  if items = [] then .ok {}
  else
    match items.foldlM processItem initAcc with
    | .error e => .error e
    | .ok acc => .ok (finishSummary acc)

/-!
## GWP dimensional tree builder

`get_member_gwp_tree` joins each `gwp_breakdown` row with its five
dimension records and keys each level by the `(code, name)` pair.  A
`FactRow` carries exactly the fields the builder reads from one row.
Python `dict` / `defaultdict` preserve insertion order, updating an
existing key in place: the nested structure is modelled as nested
association lists where a missing key is appended at the end.
-/

/-- The `(dimension_id, name)` pair used as a dict key at every level. -/
abbrev DimKey := String × String

/-- One GWP fact row as read by the builder. -/
structure FactRow where
  id : String
  lob : DimKey
  cob : DimKey
  product : DimKey
  sub_product : DimKey
  mpp : DimKey
  total_gwp : Option ℚ
deriving Repr, DecidableEq

/-- The value `b.total_gwp or Decimal("0")`. -/
def FactRow.gwp (r : FactRow) : ℚ := r.total_gwp.getD 0

/-- Innermost (mpp) dict value: `{"gwp": ..., "breakdown_ids": [...]}`. -/
structure MppData where
  gwp : ℚ
  breakdown_ids : List String
deriving Repr, DecidableEq

/-- Sub-product dict value. -/
structure SubData where
  gwp : ℚ
  children : List (DimKey × MppData)
deriving Repr, DecidableEq

/-- Product dict value. -/
structure ProdData where
  gwp : ℚ
  children : List (DimKey × SubData)
deriving Repr, DecidableEq

/-- Class-of-business dict value. -/
structure CobData where
  gwp : ℚ
  children : List (DimKey × ProdData)
deriving Repr, DecidableEq

/-- Line-of-business dict value. -/
structure LobData where
  gwp : ℚ
  children : List (DimKey × CobData)
deriving Repr, DecidableEq

/-- A `defaultdict` access-and-update on an insertion-ordered association
list: an existing key is updated in place, a missing key is materialised
from the default at the end. -/
def updA {V : Type} (k : DimKey) (d : V) (f : V → V) :
    List (DimKey × V) → List (DimKey × V)
  | [] => [(k, f d)]
  | e :: rest =>
    if e.1 = k then (e.1, f e.2) :: rest else e :: updA k d f rest

/-- Leaf update for one fact row: `gwp += row` and
`breakdown_ids.append(b.id)`. -/
def insMpp (r : FactRow) (l : List (DimKey × MppData)) :
    List (DimKey × MppData) :=
  updA r.mpp ⟨0, []⟩
    (fun d => ⟨d.gwp + r.gwp, d.breakdown_ids ++ [r.id]⟩) l

/-- Sub-product-level update for one fact row. -/
def insSub (r : FactRow) (l : List (DimKey × SubData)) :
    List (DimKey × SubData) :=
  updA r.sub_product ⟨0, []⟩
    (fun d => ⟨d.gwp + r.gwp, insMpp r d.children⟩) l

/-- Product-level update for one fact row. -/
def insProd (r : FactRow) (l : List (DimKey × ProdData)) :
    List (DimKey × ProdData) :=
  updA r.product ⟨0, []⟩
    (fun d => ⟨d.gwp + r.gwp, insSub r d.children⟩) l

/-- Class-of-business-level update for one fact row. -/
def insCob (r : FactRow) (l : List (DimKey × CobData)) :
    List (DimKey × CobData) :=
  updA r.cob ⟨0, []⟩
    (fun d => ⟨d.gwp + r.gwp, insProd r d.children⟩) l

/-- Line-of-business-level update for one fact row: the five `+=` lines
of the loop body, which all touch the single path of this row. -/
def insLob (r : FactRow) (l : List (DimKey × LobData)) :
    List (DimKey × LobData) :=
  updA r.lob ⟨0, []⟩
    (fun d => ⟨d.gwp + r.gwp, insCob r d.children⟩) l

/-- The `for b in breakdowns:` loop building the nested dict. -/
def buildTreeAux (facts : List FactRow) : List (DimKey × LobData) :=
  facts.foldl (fun t r => insLob r t) []

/-- The `total_gwp` accumulator of the same loop. -/
def totalGwpAcc (facts : List FactRow) : ℚ :=
  facts.foldl (fun a r => a + r.gwp) 0

/-!
`build_node` is one recursive Python function whose recursion follows the
fixed level chain lob → cob → product → sub_product → mpp; it is unrolled
here into one typed constructor per level.  The `level` tag of each node
is carried by the Lean type; only the leaf (mpp) node type has the
`gwp_breakdown_ids` field, exactly as only leaf dicts carry
`breakdown_ids` in the source.
-/

/-- Leaf output node (`level == "mpp"`). -/
structure NodeMpp where
  code : String
  name : String
  total_gwp : ℚ
  gwp_breakdown_ids : List String
deriving Repr, DecidableEq

/-- Sub-product output node. -/
structure NodeSub where
  code : String
  name : String
  total_gwp : ℚ
  children : List NodeMpp
deriving Repr, DecidableEq

/-- Product output node. -/
structure NodeProd where
  code : String
  name : String
  total_gwp : ℚ
  children : List NodeSub
deriving Repr, DecidableEq

/-- Class-of-business output node. -/
structure NodeCob where
  code : String
  name : String
  total_gwp : ℚ
  children : List NodeProd
deriving Repr, DecidableEq

/-- Line-of-business output node. -/
structure NodeLob where
  code : String
  name : String
  total_gwp : ℚ
  children : List NodeCob
deriving Repr, DecidableEq

/-- Unrolling of `build_node` at `level == "mpp"`. -/
def buildNodeMpp (k : DimKey) (d : MppData) : NodeMpp :=
  ⟨k.1, k.2, d.gwp, d.breakdown_ids⟩

/-- Unrolling of `build_node` at `level == "sub_product"`. -/
def buildNodeSub (k : DimKey) (d : SubData) : NodeSub :=
  ⟨k.1, k.2, d.gwp, d.children.map (fun e => buildNodeMpp e.1 e.2)⟩

/-- Unrolling of `build_node` at `level == "product"`. -/
def buildNodeProd (k : DimKey) (d : ProdData) : NodeProd :=
  ⟨k.1, k.2, d.gwp, d.children.map (fun e => buildNodeSub e.1 e.2)⟩

/-- Unrolling of `build_node` at `level == "cob"`. -/
def buildNodeCob (k : DimKey) (d : CobData) : NodeCob :=
  ⟨k.1, k.2, d.gwp, d.children.map (fun e => buildNodeProd e.1 e.2)⟩

/-- Unrolling of `build_node` at `level == "lob"`. -/
def buildNodeLob (k : DimKey) (d : LobData) : NodeLob :=
  ⟨k.1, k.2, d.gwp, d.children.map (fun e => buildNodeCob e.1 e.2)⟩

/-- The pure core of `get_member_gwp_tree`: the returned `"tree"` forest
and `"total_gwp"` grand total (member metadata and the str serialisation
aside).  The `if not breakdowns` early return produces `([], 0)`. -/
def get_member_gwp_tree (facts : List FactRow) : List NodeLob × ℚ :=
  if facts = [] then ([], 0)
  else
    ((buildTreeAux facts).map (fun e => buildNodeLob e.1 e.2),
      totalGwpAcc facts)

/-!
## Per-item contribution functions

Reference (specification-side) descriptions of what one `PortfolioItem`
contributes to each accumulator of `compute_portfolio_summary`; the fold
lemmas below prove the embedded loop agrees with them.
-/

/-- The value `item.allocation_pct or Decimal("0")`. -/
def itemAllocation (it : PortfolioItem) : ℚ := it.allocation_pct.getD 0

/-- The linked GWP fact of an item's authority, when both exist. -/
def itemGwp (it : PortfolioItem) : Option GWPBreakdown :=
  it.authority.bind Authority.gwp_breakdown

/-- The item's loss ratio, when the linked GWP fact carries one. -/
def itemLossRatio (it : PortfolioItem) : Option ℚ :=
  (itemGwp it).bind GWPBreakdown.loss_ratio

/-- Premium contribution of an optional GWP fact at a given allocation. -/
def gwpPremium (g : Option GWPBreakdown) (al : ℚ) : ℚ :=
  match g with
  | some gw => gw.total_gwp.getD 0 * al / 100
  | none => 0

/-- Weighted loss-ratio contribution of an optional GWP fact. -/
def gwpLossSum (g : Option GWPBreakdown) (al : ℚ) : ℚ :=
  match g.bind GWPBreakdown.loss_ratio with
  | some lr => lr * al
  | none => 0

/-- Loss-ratio weight contribution of an optional GWP fact. -/
def gwpLossW (g : Option GWPBreakdown) (al : ℚ) : ℚ :=
  match g.bind GWPBreakdown.loss_ratio with
  | some _ => al
  | none => 0

/-- Keep an unwrapped value only when it is truthy. -/
def truthyVal : Option PyScalar → Option PyScalar
  | some v => if v.truthy then some v else none
  | none => none

/-- Weighted `max_annual_premium` contribution of one field entry. -/
def fieldPremium (entry : FieldEntry) (al : ℚ) : ℚ :=
  match truthyVal entry.unwrap with
  | some v => v.parse.getD 0 * al / 100
  | none => 0

/-- Weighted `max_limits_of_liability` contribution of one field entry. -/
def fieldLimitSum (entry : FieldEntry) (al : ℚ) : ℚ :=
  match truthyVal entry.unwrap with
  | some v => v.parse.getD 0 * al
  | none => 0

/-- Limit-weight contribution of one field entry. -/
def fieldLimitW (entry : FieldEntry) (al : ℚ) : ℚ :=
  match truthyVal entry.unwrap with
  | some _ => al
  | none => 0

/-- The extracted-data mapping the loop reads for an item (`{}` when the
authority is absent — in the source the loop `continue`s, never reading
the fields, which contributes the same zero amounts). -/
def itemExtracted (it : PortfolioItem) : ExtractedData :=
  match it.authority with
  | some a => a.extracted_data.getD emptyExtracted
  | none => emptyExtracted

/-- Unwrapped `max_annual_premium` value of an item. -/
def itemMapRaw (it : PortfolioItem) : Option PyScalar :=
  (itemExtracted it).max_annual_premium.unwrap

/-- Unwrapped `max_limits_of_liability` value of an item. -/
def itemLimitRaw (it : PortfolioItem) : Option PyScalar :=
  (itemExtracted it).max_limits_of_liability.unwrap

/-- Premium contribution of one item. -/
def itemPremium (it : PortfolioItem) : ℚ :=
  gwpPremium (itemGwp it) (itemAllocation it)

/-- Weighted loss-ratio contribution of one item. -/
def itemLossSum (it : PortfolioItem) : ℚ :=
  gwpLossSum (itemGwp it) (itemAllocation it)

/-- Loss-ratio weight contribution of one item. -/
def itemLossWeight (it : PortfolioItem) : ℚ :=
  gwpLossW (itemGwp it) (itemAllocation it)

/-- The `max_annual_premium` contribution of one item. -/
def itemMapContrib (it : PortfolioItem) : ℚ :=
  fieldPremium (itemExtracted it).max_annual_premium (itemAllocation it)

/-- Weighted limit contribution of one item. -/
def itemLimitSum (it : PortfolioItem) : ℚ :=
  fieldLimitSum (itemExtracted it).max_limits_of_liability (itemAllocation it)

/-- Limit-weight contribution of one item. -/
def itemLimitWeight (it : PortfolioItem) : ℚ :=
  fieldLimitW (itemExtracted it).max_limits_of_liability (itemAllocation it)

/-!
## Tree-side specification functions and invariants
-/

/-- Sum of a measure over the values of an association list. -/
def asum {V M : Type} [AddCommMonoid M] (μ : V → M) (l : List (DimKey × V)) : M :=
  (l.map (fun e => μ e.2)).sum

/-- Multiset of breakdown ids stored at a leaf dict. -/
def mppIdsM (d : MppData) : Multiset String := (d.breakdown_ids : Multiset String)

/-- Multiset of breakdown ids below a sub-product dict. -/
def subIdsM (d : SubData) : Multiset String := asum mppIdsM d.children

/-- Multiset of breakdown ids below a product dict. -/
def prodIdsM (d : ProdData) : Multiset String := asum subIdsM d.children

/-- Multiset of breakdown ids below a class-of-business dict. -/
def cobIdsM (d : CobData) : Multiset String := asum prodIdsM d.children

/-- Multiset of breakdown ids below a line-of-business dict. -/
def lobIdsM (d : LobData) : Multiset String := asum cobIdsM d.children

/-- A sub-product dict's gwp equals the sum over its leaves. -/
def SubOk (d : SubData) : Prop := d.gwp = asum MppData.gwp d.children

/-- A product dict's gwp equals the sum over its children, recursively. -/
def ProdOk (d : ProdData) : Prop :=
  d.gwp = asum SubData.gwp d.children ∧ ∀ e ∈ d.children, SubOk e.2

/-- A class-of-business dict's gwp equals the sum over its children,
recursively. -/
def CobOk (d : CobData) : Prop :=
  d.gwp = asum ProdData.gwp d.children ∧ ∀ e ∈ d.children, ProdOk e.2

/-- A line-of-business dict's gwp equals the sum over its children,
recursively. -/
def LobOk (d : LobData) : Prop :=
  d.gwp = asum CobData.gwp d.children ∧ ∀ e ∈ d.children, CobOk e.2

/-- Every node of the nested dict satisfies the additive-gwp invariant. -/
def TreeOk (t : List (DimKey × LobData)) : Prop := ∀ e ∈ t, LobOk e.2

/-- A leaf dict's id list is an in-order sub-sequence of `ids`. -/
def MppSub (ids : List String) (d : MppData) : Prop := d.breakdown_ids.Sublist ids

/-- Every leaf below a sub-product dict satisfies `MppSub ids`. -/
def SubSub (ids : List String) (d : SubData) : Prop := ∀ e ∈ d.children, MppSub ids e.2

/-- Every leaf below a product dict satisfies `MppSub ids`. -/
def ProdSub (ids : List String) (d : ProdData) : Prop := ∀ e ∈ d.children, SubSub ids e.2

/-- Every leaf below a class-of-business dict satisfies `MppSub ids`. -/
def CobSub (ids : List String) (d : CobData) : Prop := ∀ e ∈ d.children, ProdSub ids e.2

/-- Every leaf below a line-of-business dict satisfies `MppSub ids`. -/
def LobSub (ids : List String) (d : LobData) : Prop := ∀ e ∈ d.children, CobSub ids e.2

/-- Every leaf of the nested dict satisfies `MppSub ids`. -/
def TreeSub (ids : List String) (t : List (DimKey × LobData)) : Prop :=
  ∀ e ∈ t, LobSub ids e.2

/-- Output-side additive invariant at a sub-product node. -/
def subNodeOk (n : NodeSub) : Prop :=
  n.total_gwp = (n.children.map NodeMpp.total_gwp).sum

/-- Output-side additive invariant at a product node, recursively. -/
def prodNodeOk (n : NodeProd) : Prop :=
  n.total_gwp = (n.children.map NodeSub.total_gwp).sum ∧
  ∀ c ∈ n.children, subNodeOk c

/-- Output-side additive invariant at a class-of-business node,
recursively. -/
def cobNodeOk (n : NodeCob) : Prop :=
  n.total_gwp = (n.children.map NodeProd.total_gwp).sum ∧
  ∀ c ∈ n.children, prodNodeOk c

/-- Output-side additive invariant at a line-of-business node,
recursively. -/
def lobNodeOk (n : NodeLob) : Prop :=
  n.total_gwp = (n.children.map NodeCob.total_gwp).sum ∧
  ∀ c ∈ n.children, cobNodeOk c

/-- The `breakdown_ids` lists of the leaves below a sub-product node. -/
def subLeafLists (n : NodeSub) : List (List String) :=
  n.children.map NodeMpp.gwp_breakdown_ids

/-- The `breakdown_ids` lists of the leaves below a product node. -/
def prodLeafLists (n : NodeProd) : List (List String) :=
  n.children.flatMap subLeafLists

/-- The `breakdown_ids` lists of the leaves below a class-of-business
node. -/
def cobLeafLists (n : NodeCob) : List (List String) :=
  n.children.flatMap prodLeafLists

/-- The `breakdown_ids` lists of the leaves below a line-of-business
node. -/
def lobLeafLists (n : NodeLob) : List (List String) :=
  n.children.flatMap cobLeafLists

/-- The `breakdown_ids` lists of all leaves of the forest, in tree
order. -/
def forestLeafLists (forest : List NodeLob) : List (List String) :=
  forest.flatMap lobLeafLists

/-!
## Concrete inputs used by the claim witnesses
-/

/-- An item whose `max_annual_premium` extracted value unwraps to the
string `"N/A"`, at allocation 50. -/
def naItem : PortfolioItem :=
  ⟨some 50, some ⟨none, some ⟨.obj (some (.s "N/A")), .missing⟩⟩⟩

/-- A sibling item whose `max_annual_premium` extracted value unwraps to
the string `"$1,000,000"`, at allocation 50. -/
def dollarItem : PortfolioItem :=
  ⟨some 50, some ⟨none, some ⟨.obj (some (.s "$1,000,000")), .missing⟩⟩⟩

/-- Two items with `total_gwp=100` at `allocation_pct=50` and
`total_gwp=200` at `allocation_pct=25`. -/
def itemsC3 : List PortfolioItem :=
  [⟨some 50, some ⟨some ⟨some 100, none⟩, none⟩⟩,
   ⟨some 25, some ⟨some ⟨some 200, none⟩, none⟩⟩]

/-- Expected summary for `itemsC3`. -/
def summaryC3 : PortfolioSummary := { total_premium := 100, total_allocation := 75 }

/-- Items with `loss_ratio=0.5` at `allocation_pct=60` and
`loss_ratio=0.7` at `allocation_pct=40`. -/
def itemsC5 : List PortfolioItem :=
  [⟨some 60, some ⟨some ⟨none, some (1/2)⟩, none⟩⟩,
   ⟨some 40, some ⟨some ⟨none, some (7/10)⟩, none⟩⟩]

/-- Expected summary for `itemsC5`: `avg_loss_ratio = 0.58`. -/
def summaryC5 : PortfolioSummary :=
  { avg_loss_ratio := some (29/50), total_allocation := 100 }

/-- One item producing `total_premium = 150` and
`max_annual_premium_total = 100`. -/
def itemsC6 : List PortfolioItem :=
  [⟨some 50, some ⟨some ⟨some 300, none⟩, some ⟨.scalar (.s "200"), .missing⟩⟩⟩]

/-- Expected summary for `itemsC6`: negative growth potential. -/
def summaryC6 : PortfolioSummary :=
  { total_premium := 150, max_annual_premium := 100,
    growth_potential_pct := some (-50), total_allocation := 50 }

/-- An item with no resolvable authority and an item whose authority has
no linked GWP fact. -/
def itemsC8 : List PortfolioItem :=
  [⟨some 30, none⟩, ⟨some 45, some ⟨none, none⟩⟩]

/-- Expected summary for `itemsC8`: allocations still counted. -/
def summaryC8 : PortfolioSummary := { total_allocation := 75 }

/-- An item with a truthy parseable limit `"100"` and an item whose limit
is the numeric value `0` (falsy), both at allocation 50. -/
def itemsC10 : List PortfolioItem :=
  [⟨some 50, some ⟨none, some ⟨.missing, .scalar (.s "100")⟩⟩⟩,
   ⟨some 50, some ⟨none, some ⟨.missing, .scalar (.num 0)⟩⟩⟩]

/-- Expected summary for `itemsC10`: the zero-valued limit contributes
neither to the weighted sum nor to the weight. -/
def summaryC10 : PortfolioSummary :=
  { avg_limit := some 100, total_allocation := 100 }

/-- Three GWP fact rows, two sharing one full 5-tuple path. -/
def factsC7 : List FactRow :=
  [⟨"b1", ("L1", "Lob1"), ("C1", "Cob1"), ("P1", "Prod1"), ("S1", "Sub1"),
    ("M1", "Mpp1"), some 10⟩,
   ⟨"b2", ("L1", "Lob1"), ("C1", "Cob1"), ("P1", "Prod1"), ("S1", "Sub1"),
    ("M1", "Mpp1"), some 5⟩,
   ⟨"b3", ("L2", "Lob2"), ("C2", "Cob2"), ("P2", "Prod2"), ("S2", "Sub2"),
    ("M2", "Mpp2"), none⟩]

/-- Lists of ids viewed as multisets (order forgotten). -/
def coeM (l : List String) : Multiset String := l

deriving instance DecidableEq for Except

/-!
## Step lemmas for the aggregation loop
-/

theorem gwpStep_total_premium (al : ℚ) (acc : SummaryAcc)
    (g : Option GWPBreakdown) :
    (gwpStep al acc g).total_premium = acc.total_premium + gwpPremium g al := by
  cases g with
  | none => simp [gwpStep, gwpPremium]
  | some gw => cases hl : gw.loss_ratio <;> simp [gwpStep, gwpPremium, hl]

theorem gwpStep_loss_sum (al : ℚ) (acc : SummaryAcc)
    (g : Option GWPBreakdown) :
    (gwpStep al acc g).weighted_loss_ratio_sum =
      acc.weighted_loss_ratio_sum + gwpLossSum g al := by
  cases g with
  | none => simp [gwpStep, gwpLossSum]
  | some gw => cases hl : gw.loss_ratio <;> simp [gwpStep, gwpLossSum, hl]

theorem gwpStep_loss_weight (al : ℚ) (acc : SummaryAcc)
    (g : Option GWPBreakdown) :
    (gwpStep al acc g).loss_ratio_weight = acc.loss_ratio_weight + gwpLossW g al := by
  cases g with
  | none => simp [gwpStep, gwpLossW]
  | some gw => cases hl : gw.loss_ratio <;> simp [gwpStep, gwpLossW, hl]

theorem gwpStep_max_annual_premium (al : ℚ) (acc : SummaryAcc)
    (g : Option GWPBreakdown) :
    (gwpStep al acc g).max_annual_premium = acc.max_annual_premium := by
  cases g with
  | none => simp [gwpStep]
  | some gw => cases hl : gw.loss_ratio <;> simp [gwpStep, hl]

theorem gwpStep_total_allocation (al : ℚ) (acc : SummaryAcc)
    (g : Option GWPBreakdown) :
    (gwpStep al acc g).total_allocation = acc.total_allocation := by
  cases g with
  | none => simp [gwpStep]
  | some gw => cases hl : gw.loss_ratio <;> simp [gwpStep, hl]

theorem gwpStep_limit_sum (al : ℚ) (acc : SummaryAcc)
    (g : Option GWPBreakdown) :
    (gwpStep al acc g).weighted_limit_sum = acc.weighted_limit_sum := by
  cases g with
  | none => simp [gwpStep]
  | some gw => cases hl : gw.loss_ratio <;> simp [gwpStep, hl]

theorem gwpStep_limit_weight (al : ℚ) (acc : SummaryAcc)
    (g : Option GWPBreakdown) :
    (gwpStep al acc g).limit_weight = acc.limit_weight := by
  cases g with
  | none => simp [gwpStep]
  | some gw => cases hl : gw.loss_ratio <;> simp [gwpStep, hl]

theorem maxPremiumStep_ok {al : ℚ} {acc acc' : SummaryAcc} {entry : FieldEntry}
    (h : maxPremiumStep al acc entry = Except.ok acc') :
    acc' = { acc with
      max_annual_premium := acc.max_annual_premium + fieldPremium entry al } := by
  unfold maxPremiumStep at h
  cases hu : entry.unwrap with
  | none => simp [hu, fieldPremium, truthyVal] at h ⊢; simp [← h]
  | some v =>
    by_cases ht : v.truthy
    · cases hp : v.parse with
      | none => simp [hu, ht, hp] at h
      | some q => simp [hu, ht, hp, fieldPremium, truthyVal] at h ⊢; simp [← h]
    · simp [hu, ht, fieldPremium, truthyVal] at h ⊢; simp [← h]

theorem maxLimitStep_ok {al : ℚ} {acc acc' : SummaryAcc} {entry : FieldEntry}
    (h : maxLimitStep al acc entry = Except.ok acc') :
    acc' = { acc with
      weighted_limit_sum := acc.weighted_limit_sum + fieldLimitSum entry al,
      limit_weight := acc.limit_weight + fieldLimitW entry al } := by
  unfold maxLimitStep at h
  cases hu : entry.unwrap with
  | none => simp [hu, fieldLimitSum, fieldLimitW, truthyVal] at h ⊢; simp [← h]
  | some v =>
    by_cases ht : v.truthy
    · cases hp : v.parse with
      | none => simp [hu, ht, hp] at h
      | some q =>
        simp [hu, ht, hp, fieldLimitSum, fieldLimitW, truthyVal] at h ⊢
        simp [← h]
    · simp [hu, ht, fieldLimitSum, fieldLimitW, truthyVal] at h ⊢; simp [← h]

/-- One loop iteration adds exactly the per-item contributions to every
accumulator (when it does not raise). -/
theorem processItem_ok {acc acc' : SummaryAcc} {it : PortfolioItem}
    (h : processItem acc it = Except.ok acc') :
    acc'.total_premium = acc.total_premium + itemPremium it ∧
    acc'.max_annual_premium = acc.max_annual_premium + itemMapContrib it ∧
    acc'.total_allocation = acc.total_allocation + itemAllocation it ∧
    acc'.weighted_loss_ratio_sum = acc.weighted_loss_ratio_sum + itemLossSum it ∧
    acc'.weighted_limit_sum = acc.weighted_limit_sum + itemLimitSum it ∧
    acc'.loss_ratio_weight = acc.loss_ratio_weight + itemLossWeight it ∧
    acc'.limit_weight = acc.limit_weight + itemLimitWeight it := by
  rcases it with ⟨apct, auth⟩
  cases auth with
  | none =>
    simp only [processItem, Except.ok.injEq] at h
    subst h
    simp [itemPremium, itemMapContrib, itemAllocation, itemLossSum,
      itemLimitSum, itemLossWeight, itemLimitWeight, itemGwp, itemExtracted,
      emptyExtracted, gwpPremium, gwpLossSum, gwpLossW, fieldPremium,
      fieldLimitSum, fieldLimitW, truthyVal, FieldEntry.unwrap]
  | some a =>
    rcases a with ⟨gwpB, extOpt⟩
    simp only [processItem] at h
    split at h
    · exact absurd h (by simp)
    · rename_i acc2 hmp
      have h2 := maxPremiumStep_ok hmp
      have h3 := maxLimitStep_ok h
      subst h2
      subst h3
      refine ⟨?_, ?_, ?_, ?_, ?_, ?_, ?_⟩ <;>
        simp [gwpStep_total_premium, gwpStep_loss_sum, gwpStep_loss_weight,
          gwpStep_max_annual_premium, gwpStep_total_allocation,
          gwpStep_limit_sum, gwpStep_limit_weight, itemPremium, itemMapContrib,
          itemAllocation, itemLossSum, itemLimitSum, itemLossWeight,
          itemLimitWeight, itemGwp, itemExtracted]

/-- Folding the loop over a list adds the sums of the per-item
contributions (when no iteration raises). -/
theorem foldlM_processItem_ok :
    ∀ (items : List PortfolioItem) (acc acc' : SummaryAcc),
    List.foldlM processItem acc items = Except.ok acc' →
    acc'.total_premium = acc.total_premium + (items.map itemPremium).sum ∧
    acc'.max_annual_premium = acc.max_annual_premium + (items.map itemMapContrib).sum ∧
    acc'.total_allocation = acc.total_allocation + (items.map itemAllocation).sum ∧
    acc'.weighted_loss_ratio_sum = acc.weighted_loss_ratio_sum + (items.map itemLossSum).sum ∧
    acc'.weighted_limit_sum = acc.weighted_limit_sum + (items.map itemLimitSum).sum ∧
    acc'.loss_ratio_weight = acc.loss_ratio_weight + (items.map itemLossWeight).sum ∧
    acc'.limit_weight = acc.limit_weight + (items.map itemLimitWeight).sum := by
  intro items
  induction items with
  | nil =>
    intro acc acc' h
    simp only [List.foldlM_nil] at h
    obtain rfl : acc = acc' := by injection h
    simp
  | cons it its ih =>
    intro acc acc' h
    rw [List.foldlM_cons] at h
    cases hp : processItem acc it with
    | error e => rw [hp] at h; exact absurd h (fun hc => Except.noConfusion hc)
    | ok a1 =>
      rw [hp] at h
      obtain ⟨i1, i2, i3, i4, i5, i6, i7⟩ := ih a1 acc' h
      obtain ⟨p1, p2, p3, p4, p5, p6, p7⟩ := processItem_ok hp
      refine ⟨?_, ?_, ?_, ?_, ?_, ?_, ?_⟩ <;>
        simp only [i1, i2, i3, i4, i5, i6, i7, p1, p2, p3, p4, p5, p6, p7,
          List.map_cons, List.sum_cons, add_assoc]

/-- Full characterisation of a successful `compute_portfolio_summary`
run in terms of the per-item contribution sums. -/
theorem compute_spec {items : List PortfolioItem} {s : PortfolioSummary}
    (h : compute_portfolio_summary items = Except.ok s) :
    s.total_premium = (items.map itemPremium).sum ∧
    s.max_annual_premium = (items.map itemMapContrib).sum ∧
    s.total_allocation = (items.map itemAllocation).sum ∧
    s.avg_loss_ratio = (if 0 < (items.map itemLossWeight).sum then
      some ((items.map itemLossSum).sum / (items.map itemLossWeight).sum)
      else none) ∧
    s.avg_limit = (if 0 < (items.map itemLimitWeight).sum then
      some ((items.map itemLimitSum).sum / (items.map itemLimitWeight).sum)
      else none) ∧
    s.growth_potential_pct = (if 0 < (items.map itemMapContrib).sum then
      some (((items.map itemMapContrib).sum - (items.map itemPremium).sum)
        / (items.map itemMapContrib).sum * 100)
      else none) := by
  by_cases he : items = []
  · subst he
    rw [show compute_portfolio_summary [] = Except.ok ({} : PortfolioSummary)
      from rfl] at h
    obtain rfl : ({} : PortfolioSummary) = s := by injection h
    simp
  · unfold compute_portfolio_summary at h
    rw [if_neg he] at h
    cases hf : List.foldlM processItem initAcc items with
    | error e =>
      rw [hf] at h
      exact absurd h (fun hc => Except.noConfusion hc)
    | ok acc =>
      rw [hf] at h
      obtain rfl : finishSummary acc = s := by simpa using h
      obtain ⟨f1, f2, f3, f4, f5, f6, f7⟩ := foldlM_processItem_ok items initAcc acc hf
      have z : ∀ q : ℚ, (initAcc.total_premium + q = q) := by intro q; simp [initAcc]
      constructor
      · simpa [initAcc] using f1
      constructor
      · simpa [finishSummary, initAcc] using f2
      constructor
      · simpa [finishSummary, initAcc] using f3
      constructor
      · simp only [finishSummary]
        rw [show acc.loss_ratio_weight = (items.map itemLossWeight).sum by
              simpa [initAcc] using f6,
            show acc.weighted_loss_ratio_sum = (items.map itemLossSum).sum by
              simpa [initAcc] using f4]
      constructor
      · simp only [finishSummary]
        rw [show acc.limit_weight = (items.map itemLimitWeight).sum by
              simpa [initAcc] using f7,
            show acc.weighted_limit_sum = (items.map itemLimitSum).sum by
              simpa [initAcc] using f5]
      · simp only [finishSummary]
        rw [show acc.max_annual_premium = (items.map itemMapContrib).sum by
              simpa [initAcc] using f2,
            show acc.total_premium = (items.map itemPremium).sum by
              simpa [initAcc] using f1]

/-- Summing a guarded contribution over a whole list equals summing the
unguarded one over the filtered list. -/
theorem sum_map_filter_if {α : Type} (p : α → Bool) (f g : α → ℚ)
    (hf : ∀ a, f a = if p a then g a else 0) :
    ∀ l : List α, ((l.filter p).map g).sum = (l.map f).sum := by
  intro l
  induction l with
  | nil => simp
  | cons a l ih =>
    by_cases hp : p a
    · simp [List.filter_cons, hp, hf a, ih]
    · simp [List.filter_cons, hp, hf a, ih]

/-- An item's premium contribution is guarded by the presence of a
linked GWP fact. -/
theorem itemPremium_guard (it : PortfolioItem) :
    itemPremium it = if (itemGwp it).isSome then itemPremium it else 0 := by
  unfold itemPremium gwpPremium
  cases itemGwp it <;> simp

/-- An item's loss-ratio weight is its allocation exactly when it
carries a non-null loss ratio. -/
theorem itemLossWeight_eq (it : PortfolioItem) :
    itemLossWeight it =
      if (itemLossRatio it).isSome then itemAllocation it else 0 := by
  unfold itemLossWeight gwpLossW itemLossRatio
  cases (itemGwp it).bind GWPBreakdown.loss_ratio <;> simp

/-- An item's weighted loss-ratio contribution is guarded by the
presence of a non-null loss ratio. -/
theorem itemLossSum_guard (it : PortfolioItem) :
    itemLossSum it = if (itemLossRatio it).isSome then itemLossSum it else 0 := by
  unfold itemLossSum gwpLossSum itemLossRatio
  cases (itemGwp it).bind GWPBreakdown.loss_ratio <;> simp

/-- An item's limit weight is its allocation exactly when its unwrapped
limit value is truthy. -/
theorem itemLimitWeight_eq (it : PortfolioItem) :
    itemLimitWeight it =
      if (truthyVal (itemLimitRaw it)).isSome then itemAllocation it else 0 := by
  unfold itemLimitWeight fieldLimitW itemLimitRaw
  cases truthyVal (itemExtracted it).max_limits_of_liability.unwrap <;> simp

/-- An item's weighted limit contribution is guarded by the truthiness
of its unwrapped limit value. -/
theorem itemLimitSum_guard (it : PortfolioItem) :
    itemLimitSum it =
      if (truthyVal (itemLimitRaw it)).isSome then itemLimitSum it else 0 := by
  unfold itemLimitSum fieldLimitSum itemLimitRaw
  cases truthyVal (itemExtracted it).max_limits_of_liability.unwrap <;> simp

/-- C1: the spec requires an unparseable extracted value such as `"N/A"`
to be skipped silently, never raising.  The code raises: `Decimal("N/A")`
raises `decimal.InvalidOperation`, which `except (ValueError, TypeError)`
does not catch, so the whole aggregation aborts — while the sibling
`"$1,000,000"` item alone does contribute `1000000 * 50 / 100`.  This
theorem evaluates the embedded code at the failing input. -/
theorem C1_invalid_operation_escapes :
    compute_portfolio_summary [naItem, dollarItem] =
      Except.error DecError.invalidOperation ∧
    compute_portfolio_summary [dollarItem] = Except.ok
      { max_annual_premium := 500000, growth_potential_pct := some 100,
        total_allocation := 50 } :=
  ⟨by with_unfolding_all rfl, by with_unfolding_all rfl⟩

/-- C3: on every successful run, `total_premium` is the sum, over exactly
the items whose authority has a linked GWP fact, of
`total_gwp * allocation_pct / 100`; items lacking a linked fact
contribute zero premium. -/
theorem C3_weighted_premium (items : List PortfolioItem) (s : PortfolioSummary)
    (h : compute_portfolio_summary items = Except.ok s) :
    s.total_premium =
      ((items.filter (fun it => (itemGwp it).isSome)).map itemPremium).sum := by
  obtain ⟨h1, -⟩ := compute_spec h
  rw [h1]
  refine (sum_map_filter_if _ itemPremium itemPremium ?_ items).symm
  intro it
  cases hg : itemGwp it <;> simp [itemPremium, gwpPremium, hg]

/-- Witness for C3 at the spec's concrete example:
`total_gwp=100 @ 50` and `total_gwp=200 @ 25` give `total_premium=100`. -/
theorem C3_weighted_premium_witness :
    summaryC3.total_premium =
      ((itemsC3.filter (fun it => (itemGwp it).isSome)).map itemPremium).sum ∧
    summaryC3.total_premium = 100 :=
  ⟨C3_weighted_premium itemsC3 summaryC3 (by with_unfolding_all rfl), by with_unfolding_all rfl⟩

/-- C4: the empty item list yields the all-defaults summary (totals `0`,
optional fields absent) and the empty fact list yields the empty tree
with grand total `0`. -/
theorem C4_empty_inputs :
    compute_portfolio_summary [] = Except.ok
      { total_premium := 0, max_annual_premium := 0, avg_loss_ratio := none,
        avg_limit := none, growth_potential_pct := none,
        total_allocation := 0 } ∧
    get_member_gwp_tree [] = ([], 0) :=
  ⟨rfl, rfl⟩

/-- C5: on every successful run, `avg_loss_ratio` is the
allocation-weighted average of the loss ratios over exactly the items
carrying a non-null `loss_ratio`, present iff that weight sum is
positive. -/
theorem C5_loss_ratio_average (items : List PortfolioItem)
    (s : PortfolioSummary)
    (h : compute_portfolio_summary items = Except.ok s) :
    s.avg_loss_ratio =
      (if 0 < ((items.filter (fun it => (itemLossRatio it).isSome)).map
          itemAllocation).sum then
        some (((items.filter (fun it => (itemLossRatio it).isSome)).map
            itemLossSum).sum /
          ((items.filter (fun it => (itemLossRatio it).isSome)).map
            itemAllocation).sum)
      else none) := by
  obtain ⟨-, -, -, h4, -⟩ := compute_spec h
  rw [h4,
    ← sum_map_filter_if (fun it => (itemLossRatio it).isSome) itemLossWeight
      itemAllocation itemLossWeight_eq items,
    ← sum_map_filter_if (fun it => (itemLossRatio it).isSome) itemLossSum
      itemLossSum itemLossSum_guard items]

/-- Witness for C5 at the spec's concrete example:
`0.5 @ 60` and `0.7 @ 40` give `avg_loss_ratio = 0.58`. -/
theorem C5_loss_ratio_average_witness :
    summaryC5.avg_loss_ratio =
      (if 0 < ((itemsC5.filter (fun it => (itemLossRatio it).isSome)).map
          itemAllocation).sum then
        some (((itemsC5.filter (fun it => (itemLossRatio it).isSome)).map
            itemLossSum).sum /
          ((itemsC5.filter (fun it => (itemLossRatio it).isSome)).map
            itemAllocation).sum)
      else none) ∧
    summaryC5.avg_loss_ratio = some (29 / 50) :=
  ⟨C5_loss_ratio_average itemsC5 summaryC5 (by with_unfolding_all rfl), by with_unfolding_all rfl⟩

/-- C6: on every successful run, `growth_potential_pct` equals
`(max_annual_premium_total - total_premium) / max_annual_premium_total *
100` when the max-premium total is positive and is absent otherwise;
negative values are returned as ordinary results. -/
theorem C6_growth_potential (items : List PortfolioItem)
    (s : PortfolioSummary)
    (h : compute_portfolio_summary items = Except.ok s) :
    (0 < s.max_annual_premium →
      s.growth_potential_pct =
        some ((s.max_annual_premium - s.total_premium) /
          s.max_annual_premium * 100)) ∧
    (¬ 0 < s.max_annual_premium → s.growth_potential_pct = none) := by
  obtain ⟨h1, h2, -, -, -, h6⟩ := compute_spec h
  constructor
  · intro hpos
    rw [h2] at hpos
    rw [h6, if_pos hpos, h1, h2]
  · intro hneg
    rw [h2] at hneg
    rw [h6, if_neg hneg]

/-- Witness for C6 at the spec's concrete example: `total_premium=150`
against `max_annual_premium_total=100` yields `growth_potential_pct=-50`
as a valid (non-error) result. -/
theorem C6_growth_potential_witness :
    summaryC6.growth_potential_pct =
      some ((summaryC6.max_annual_premium - summaryC6.total_premium) /
        summaryC6.max_annual_premium * 100) ∧
    summaryC6.growth_potential_pct = some (-50) :=
  ⟨(C6_growth_potential itemsC6 summaryC6 (by with_unfolding_all rfl)).1 (by with_unfolding_all rfl),
    by with_unfolding_all rfl⟩

/-- C8: on every successful run, `total_allocation` is the raw unweighted
sum of every item's `allocation_pct`; an item with no linked GWP fact
(including no authority at all) still adds its allocation while leaving
premium and loss-ratio accumulators untouched. -/
theorem C8_total_allocation (items : List PortfolioItem)
    (s : PortfolioSummary)
    (h : compute_portfolio_summary items = Except.ok s) :
    s.total_allocation = (items.map itemAllocation).sum ∧
    (∀ (it : PortfolioItem) (acc acc' : SummaryAcc), itemGwp it = none →
      processItem acc it = Except.ok acc' →
      acc'.total_allocation = acc.total_allocation + itemAllocation it ∧
      acc'.total_premium = acc.total_premium ∧
      acc'.weighted_loss_ratio_sum = acc.weighted_loss_ratio_sum ∧
      acc'.loss_ratio_weight = acc.loss_ratio_weight) := by
  obtain ⟨-, -, h3, -⟩ := compute_spec h
  refine ⟨h3, ?_⟩
  intro it acc acc' hg hp
  obtain ⟨p1, -, p3, p4, -, p6, -⟩ := processItem_ok hp
  refine ⟨p3, ?_, ?_, ?_⟩
  · rw [p1]; simp [itemPremium, gwpPremium, hg]
  · rw [p4]; simp [itemLossSum, gwpLossSum, hg]
  · rw [p6]; simp [itemLossWeight, gwpLossW, hg]

/-- Witness for C8: one item with no authority (allocation 30) and one
with an authority lacking a GWP fact (allocation 45) still total 75. -/
theorem C8_total_allocation_witness :
    summaryC8.total_allocation = (itemsC8.map itemAllocation).sum ∧
    summaryC8.total_allocation = 75 :=
  ⟨(C8_total_allocation itemsC8 summaryC8 (by with_unfolding_all rfl)).1, by with_unfolding_all rfl⟩

/-- C10: a falsy unwrapped extracted value (null / missing / empty string
/ numeric zero) contributes nothing to its metric's accumulators — for
the limit metric not even to the weight — so `avg_limit` averages over
exactly the items with truthy (parseable, on a successful run) limits. -/
theorem C10_falsy_skipped (items : List PortfolioItem)
    (s : PortfolioSummary)
    (h : compute_portfolio_summary items = Except.ok s) :
    (∀ (it : PortfolioItem) (acc acc' : SummaryAcc),
      truthyVal (itemMapRaw it) = none →
      processItem acc it = Except.ok acc' →
      acc'.max_annual_premium = acc.max_annual_premium) ∧
    (∀ (it : PortfolioItem) (acc acc' : SummaryAcc),
      truthyVal (itemLimitRaw it) = none →
      processItem acc it = Except.ok acc' →
      acc'.weighted_limit_sum = acc.weighted_limit_sum ∧
      acc'.limit_weight = acc.limit_weight) ∧
    s.avg_limit =
      (if 0 < ((items.filter
          (fun it => (truthyVal (itemLimitRaw it)).isSome)).map
          itemAllocation).sum then
        some (((items.filter
            (fun it => (truthyVal (itemLimitRaw it)).isSome)).map
            itemLimitSum).sum /
          ((items.filter
            (fun it => (truthyVal (itemLimitRaw it)).isSome)).map
            itemAllocation).sum)
      else none) := by
  obtain ⟨-, -, -, -, h5, -⟩ := compute_spec h
  refine ⟨?_, ?_, ?_⟩
  · intro it acc acc' hfalsy hp
    obtain ⟨-, p2, -⟩ := processItem_ok hp
    rw [p2]
    simp only [itemMapRaw] at hfalsy
    simp [itemMapContrib, fieldPremium, hfalsy]
  · intro it acc acc' hfalsy hp
    obtain ⟨-, -, -, -, p5, -, p7⟩ := processItem_ok hp
    simp only [itemLimitRaw] at hfalsy
    rw [p5, p7]
    constructor
    · simp [itemLimitSum, fieldLimitSum, hfalsy]
    · simp [itemLimitWeight, fieldLimitW, hfalsy]
  · rw [h5,
      ← sum_map_filter_if (fun it => (truthyVal (itemLimitRaw it)).isSome)
        itemLimitWeight itemAllocation itemLimitWeight_eq items,
      ← sum_map_filter_if (fun it => (truthyVal (itemLimitRaw it)).isSome)
        itemLimitSum itemLimitSum itemLimitSum_guard items]

/-- Witness for C10: a `"100"` limit at allocation 50 next to a numeric-0
limit at allocation 50 averages to 100 over weight 50 — the zero-valued
(falsy) limit is excluded from the weight as well. -/
theorem C10_falsy_skipped_witness :
    summaryC10.avg_limit =
      (if 0 < ((itemsC10.filter
          (fun it => (truthyVal (itemLimitRaw it)).isSome)).map
          itemAllocation).sum then
        some (((itemsC10.filter
            (fun it => (truthyVal (itemLimitRaw it)).isSome)).map
            itemLimitSum).sum /
          ((itemsC10.filter
            (fun it => (truthyVal (itemLimitRaw it)).isSome)).map
            itemAllocation).sum)
      else none) ∧
    summaryC10.avg_limit = some 100 :=
  ⟨(C10_falsy_skipped itemsC10 summaryC10 (by with_unfolding_all rfl)).2.2, by with_unfolding_all rfl⟩

/-!
## Tree builder lemmas
-/

/-- Updating one key of an association list shifts any additive measure
by the same amount the update shifts a single value. -/
theorem asum_updA {V M : Type} [AddCommMonoid M] (μ : V → M) (k : DimKey)
    (d : V) (f : V → V) (δ : M) (hf : ∀ v, μ (f v) = μ v + δ) (hd : μ d = 0) :
    ∀ l, asum μ (updA k d f l) = asum μ l + δ := by
  intro l
  induction l with
  | nil => simp [updA, asum, hf, hd]
  | cons e rest ih =>
    by_cases h : e.1 = k
    · simp [updA, h, asum, hf, add_assoc, add_comm, add_left_comm]
    · simp only [updA, h, if_false, ite_false, asum, List.map_cons,
        List.sum_cons] at ih ⊢
      rw [ih, add_assoc]

theorem asum_insMpp_gwp (r : FactRow) (l : List (DimKey × MppData)) :
    asum MppData.gwp (insMpp r l) = asum MppData.gwp l + r.gwp :=
  asum_updA MppData.gwp r.mpp ⟨0, []⟩
    (fun d => ⟨d.gwp + r.gwp, d.breakdown_ids ++ [r.id]⟩) r.gwp
    (fun _ => rfl) rfl l

theorem asum_insSub_gwp (r : FactRow) (l : List (DimKey × SubData)) :
    asum SubData.gwp (insSub r l) = asum SubData.gwp l + r.gwp :=
  asum_updA SubData.gwp r.sub_product ⟨0, []⟩
    (fun d => ⟨d.gwp + r.gwp, insMpp r d.children⟩) r.gwp
    (fun _ => rfl) rfl l

theorem asum_insProd_gwp (r : FactRow) (l : List (DimKey × ProdData)) :
    asum ProdData.gwp (insProd r l) = asum ProdData.gwp l + r.gwp :=
  asum_updA ProdData.gwp r.product ⟨0, []⟩
    (fun d => ⟨d.gwp + r.gwp, insSub r d.children⟩) r.gwp
    (fun _ => rfl) rfl l

theorem asum_insCob_gwp (r : FactRow) (l : List (DimKey × CobData)) :
    asum CobData.gwp (insCob r l) = asum CobData.gwp l + r.gwp :=
  asum_updA CobData.gwp r.cob ⟨0, []⟩
    (fun d => ⟨d.gwp + r.gwp, insProd r d.children⟩) r.gwp
    (fun _ => rfl) rfl l

theorem asum_insLob_gwp (r : FactRow) (l : List (DimKey × LobData)) :
    asum LobData.gwp (insLob r l) = asum LobData.gwp l + r.gwp :=
  asum_updA LobData.gwp r.lob ⟨0, []⟩
    (fun d => ⟨d.gwp + r.gwp, insCob r d.children⟩) r.gwp
    (fun _ => rfl) rfl l

theorem asum_insMpp_ids (r : FactRow) (l : List (DimKey × MppData)) :
    asum mppIdsM (insMpp r l) = asum mppIdsM l + {r.id} :=
  asum_updA mppIdsM r.mpp ⟨0, []⟩
    (fun d => ⟨d.gwp + r.gwp, d.breakdown_ids ++ [r.id]⟩) {r.id}
    (fun v => by
      simp only [mppIdsM]
      rw [← Multiset.coe_add, Multiset.coe_singleton])
    (by simp [mppIdsM]) l

theorem asum_insSub_ids (r : FactRow) (l : List (DimKey × SubData)) :
    asum subIdsM (insSub r l) = asum subIdsM l + {r.id} :=
  asum_updA subIdsM r.sub_product ⟨0, []⟩
    (fun d => ⟨d.gwp + r.gwp, insMpp r d.children⟩) {r.id}
    (fun v => by simp only [subIdsM]; rw [asum_insMpp_ids])
    (by simp [subIdsM, asum]) l

theorem asum_insProd_ids (r : FactRow) (l : List (DimKey × ProdData)) :
    asum prodIdsM (insProd r l) = asum prodIdsM l + {r.id} :=
  asum_updA prodIdsM r.product ⟨0, []⟩
    (fun d => ⟨d.gwp + r.gwp, insSub r d.children⟩) {r.id}
    (fun v => by simp only [prodIdsM]; rw [asum_insSub_ids])
    (by simp [prodIdsM, asum]) l

theorem asum_insCob_ids (r : FactRow) (l : List (DimKey × CobData)) :
    asum cobIdsM (insCob r l) = asum cobIdsM l + {r.id} :=
  asum_updA cobIdsM r.cob ⟨0, []⟩
    (fun d => ⟨d.gwp + r.gwp, insProd r d.children⟩) {r.id}
    (fun v => by simp only [cobIdsM]; rw [asum_insProd_ids])
    (by simp [cobIdsM, asum]) l

theorem asum_insLob_ids (r : FactRow) (l : List (DimKey × LobData)) :
    asum lobIdsM (insLob r l) = asum lobIdsM l + {r.id} :=
  asum_updA lobIdsM r.lob ⟨0, []⟩
    (fun d => ⟨d.gwp + r.gwp, insCob r d.children⟩) {r.id}
    (fun v => by simp only [lobIdsM]; rw [asum_insCob_ids])
    (by simp [lobIdsM, asum]) l

/-- The loop's running total equals the sum of the rows' gwp values. -/
theorem totalGwpAcc_eq (facts : List FactRow) :
    totalGwpAcc facts = (facts.map FactRow.gwp).sum := by
  suffices h : ∀ a : ℚ, facts.foldl (fun a r => a + r.gwp) a =
      a + (facts.map FactRow.gwp).sum by
    simpa [totalGwpAcc] using h 0
  induction facts with
  | nil => intro a; simp
  | cons r rs ih => intro a; simp [ih, add_assoc]

/-- The top-level gwp measures of the built dict sum to the rows'
total. -/
theorem buildTreeAux_gwp (facts : List FactRow) :
    asum LobData.gwp (buildTreeAux facts) = (facts.map FactRow.gwp).sum := by
  suffices h : ∀ t, asum LobData.gwp (facts.foldl (fun t r => insLob r t) t) =
      asum LobData.gwp t + (facts.map FactRow.gwp).sum by
    simpa [buildTreeAux, asum] using h []
  induction facts with
  | nil => intro t; simp
  | cons r rs ih =>
    intro t
    simp only [List.foldl_cons, List.map_cons, List.sum_cons]
    rw [ih, asum_insLob_gwp, add_assoc]

/-- The multiset of ids stored in the built dict is exactly the rows'
multiset of ids. -/
theorem buildTreeAux_ids (facts : List FactRow) :
    asum lobIdsM (buildTreeAux facts) = coeM (facts.map FactRow.id) := by
  suffices h : ∀ t, asum lobIdsM (facts.foldl (fun t r => insLob r t) t) =
      asum lobIdsM t + coeM (facts.map FactRow.id) by
    simpa [buildTreeAux, asum] using h []
  induction facts with
  | nil => intro t; simp [coeM]
  | cons r rs ih =>
    intro t
    simp only [List.foldl_cons, List.map_cons]
    rw [ih, asum_insLob_ids]
    simp [coeM, add_assoc, add_comm, add_left_comm]

/-- Updating one key of an association list preserves a pointwise
property, possibly weakening it from `P` to `Q`. -/
theorem forall_updA {V : Type} (P Q : V → Prop) (k : DimKey) (d : V)
    (f : V → V) (hd : Q (f d)) (hf : ∀ v, P v → Q (f v))
    (hmono : ∀ v, P v → Q v) :
    ∀ l : List (DimKey × V), (∀ e ∈ l, P e.2) → ∀ e ∈ updA k d f l, Q e.2 := by
  intro l
  induction l with
  | nil =>
    intro _ e he
    simp only [updA, List.mem_singleton] at he
    subst he
    exact hd
  | cons x rest ih =>
    intro hl e he
    by_cases hx : x.1 = k
    · simp only [updA, if_pos hx] at he
      rcases List.mem_cons.mp he with he | he
      · subst he; exact hf x.2 (hl x (List.mem_cons_self x rest))
      · exact hmono e.2 (hl e (List.mem_cons_of_mem x he))
    · simp only [updA, if_neg hx] at he
      rcases List.mem_cons.mp he with he | he
      · exact he ▸ hmono x.2 (hl x (List.mem_cons_self x rest))
      · exact ih (fun e' he' => hl e' (List.mem_cons_of_mem x he')) e he

theorem subOk_default : SubOk ⟨0, []⟩ := by simp [SubOk, asum]

theorem prodOk_default : ProdOk ⟨0, []⟩ := ⟨by simp [asum], by simp⟩

theorem cobOk_default : CobOk ⟨0, []⟩ := ⟨by simp [asum], by simp⟩

theorem lobOk_default : LobOk ⟨0, []⟩ := ⟨by simp [asum], by simp⟩

theorem subOk_upd (r : FactRow) (v : SubData) (h : SubOk v) :
    SubOk ⟨v.gwp + r.gwp, insMpp r v.children⟩ := by
  simp only [SubOk] at h ⊢
  rw [asum_insMpp_gwp, ← h]

theorem prodOk_upd (r : FactRow) (v : ProdData) (h : ProdOk v) :
    ProdOk ⟨v.gwp + r.gwp, insSub r v.children⟩ := by
  obtain ⟨h1, h2⟩ := h
  constructor
  · show v.gwp + r.gwp = asum SubData.gwp (insSub r v.children)
    rw [asum_insSub_gwp, ← h1]
  · exact forall_updA SubOk SubOk r.sub_product ⟨0, []⟩
      (fun d => ⟨d.gwp + r.gwp, insMpp r d.children⟩)
      (subOk_upd r ⟨0, []⟩ subOk_default) (subOk_upd r) (fun _ h => h)
      v.children h2

theorem cobOk_upd (r : FactRow) (v : CobData) (h : CobOk v) :
    CobOk ⟨v.gwp + r.gwp, insProd r v.children⟩ := by
  obtain ⟨h1, h2⟩ := h
  constructor
  · show v.gwp + r.gwp = asum ProdData.gwp (insProd r v.children)
    rw [asum_insProd_gwp, ← h1]
  · exact forall_updA ProdOk ProdOk r.product ⟨0, []⟩
      (fun d => ⟨d.gwp + r.gwp, insSub r d.children⟩)
      (prodOk_upd r ⟨0, []⟩ prodOk_default) (prodOk_upd r) (fun _ h => h)
      v.children h2

theorem lobOk_upd (r : FactRow) (v : LobData) (h : LobOk v) :
    LobOk ⟨v.gwp + r.gwp, insCob r v.children⟩ := by
  obtain ⟨h1, h2⟩ := h
  constructor
  · show v.gwp + r.gwp = asum CobData.gwp (insCob r v.children)
    rw [asum_insCob_gwp, ← h1]
  · exact forall_updA CobOk CobOk r.cob ⟨0, []⟩
      (fun d => ⟨d.gwp + r.gwp, insProd r d.children⟩)
      (cobOk_upd r ⟨0, []⟩ cobOk_default) (cobOk_upd r) (fun _ h => h)
      v.children h2

theorem treeOk_insLob (r : FactRow) (t : List (DimKey × LobData))
    (h : TreeOk t) : TreeOk (insLob r t) :=
  forall_updA LobOk LobOk r.lob ⟨0, []⟩
    (fun d => ⟨d.gwp + r.gwp, insCob r d.children⟩)
    (lobOk_upd r ⟨0, []⟩ lobOk_default) (lobOk_upd r) (fun _ h => h) t h

/-- Every node of the dict built by the loop satisfies the additive-gwp
invariant. -/
theorem treeOk_buildTreeAux (facts : List FactRow) :
    TreeOk (buildTreeAux facts) := by
  suffices h : ∀ t, TreeOk t → TreeOk (facts.foldl (fun t r => insLob r t) t) by
    exact h [] (by intro e he; simp at he)
  induction facts with
  | nil => intro t h; exact h
  | cons r rs ih => intro t h; exact ih _ (treeOk_insLob r t h)

theorem buildNodeSub_ok (k : DimKey) (d : SubData) (h : SubOk d) :
    subNodeOk (buildNodeSub k d) := by
  simp only [subNodeOk, buildNodeSub, List.map_map]
  exact h

theorem buildNodeProd_ok (k : DimKey) (d : ProdData) (h : ProdOk d) :
    prodNodeOk (buildNodeProd k d) := by
  obtain ⟨h1, h2⟩ := h
  constructor
  · simp only [buildNodeProd, List.map_map]
    exact h1
  · intro c hc
    simp only [buildNodeProd, List.mem_map] at hc
    obtain ⟨e, he, rfl⟩ := hc
    exact buildNodeSub_ok e.1 e.2 (h2 e he)

theorem buildNodeCob_ok (k : DimKey) (d : CobData) (h : CobOk d) :
    cobNodeOk (buildNodeCob k d) := by
  obtain ⟨h1, h2⟩ := h
  constructor
  · simp only [buildNodeCob, List.map_map]
    exact h1
  · intro c hc
    simp only [buildNodeCob, List.mem_map] at hc
    obtain ⟨e, he, rfl⟩ := hc
    exact buildNodeProd_ok e.1 e.2 (h2 e he)

theorem buildNodeLob_ok (k : DimKey) (d : LobData) (h : LobOk d) :
    lobNodeOk (buildNodeLob k d) := by
  obtain ⟨h1, h2⟩ := h
  constructor
  · simp only [buildNodeLob, List.map_map]
    exact h1
  · intro c hc
    simp only [buildNodeLob, List.mem_map] at hc
    obtain ⟨e, he, rfl⟩ := hc
    exact buildNodeCob_ok e.1 e.2 (h2 e he)

/-- C2: the grand total returned by the tree builder equals the sum of
every input fact row's `total_gwp`; this also equals the sum of the
top-level nodes' totals; and every non-leaf node's `total_gwp` equals the
sum of its direct children's `total_gwp` (leaf nodes, of type `NodeMpp`,
have no children). -/
theorem C2_tree_sums (facts : List FactRow) :
    (get_member_gwp_tree facts).2 = (facts.map FactRow.gwp).sum ∧
    ((get_member_gwp_tree facts).1.map NodeLob.total_gwp).sum =
      (get_member_gwp_tree facts).2 ∧
    ∀ n ∈ (get_member_gwp_tree facts).1, lobNodeOk n := by
  by_cases he : facts = []
  · subst he
    refine ⟨rfl, rfl, ?_⟩
    intro n hn
    simp [get_member_gwp_tree] at hn
  · have hfst : (get_member_gwp_tree facts).1 =
        (buildTreeAux facts).map (fun e => buildNodeLob e.1 e.2) := by
      simp [get_member_gwp_tree, he]
    have hsnd : (get_member_gwp_tree facts).2 = totalGwpAcc facts := by
      simp [get_member_gwp_tree, he]
    refine ⟨hsnd.trans (totalGwpAcc_eq facts), ?_, ?_⟩
    · rw [hfst, hsnd, List.map_map, totalGwpAcc_eq]
      exact buildTreeAux_gwp facts
    · intro n hn
      rw [hfst] at hn
      simp only [List.mem_map] at hn
      obtain ⟨e, he', rfl⟩ := hn
      exact buildNodeLob_ok e.1 e.2 (treeOk_buildTreeAux facts e he')

theorem coe_flatten_eq (L : List (List String)) :
    coeM L.flatten = (L.map coeM).sum := by
  induction L with
  | nil => rfl
  | cons x xs ih =>
    simp only [List.flatten_cons, List.map_cons, List.sum_cons, coeM] at ih ⊢
    rw [← Multiset.coe_add, ih]

theorem sum_map_flatMap {α β M : Type} [AddCommMonoid M] (f : α → List β)
    (g : β → M) :
    ∀ l : List α,
      ((l.flatMap f).map g).sum = (l.map fun a => ((f a).map g).sum).sum := by
  intro l
  induction l with
  | nil => rfl
  | cons a l ih => simp [List.flatMap_cons, ih]

theorem subLeaf_ids (k : DimKey) (d : SubData) :
    ((subLeafLists (buildNodeSub k d)).map coeM).sum = subIdsM d := by
  simp only [subLeafLists, buildNodeSub, List.map_map]
  rfl

theorem prodLeaf_ids (k : DimKey) (d : ProdData) :
    ((prodLeafLists (buildNodeProd k d)).map coeM).sum = prodIdsM d := by
  simp only [prodLeafLists, buildNodeProd, List.flatMap_map]
  rw [sum_map_flatMap (fun e : DimKey × SubData =>
    subLeafLists (buildNodeSub e.1 e.2)) coeM d.children]
  rw [show (fun e : DimKey × SubData =>
      ((subLeafLists (buildNodeSub e.1 e.2)).map coeM).sum) =
      fun e => subIdsM e.2 from funext fun e => subLeaf_ids e.1 e.2]
  rfl

theorem cobLeaf_ids (k : DimKey) (d : CobData) :
    ((cobLeafLists (buildNodeCob k d)).map coeM).sum = cobIdsM d := by
  simp only [cobLeafLists, buildNodeCob, List.flatMap_map]
  rw [sum_map_flatMap (fun e : DimKey × ProdData =>
    prodLeafLists (buildNodeProd e.1 e.2)) coeM d.children]
  rw [show (fun e : DimKey × ProdData =>
      ((prodLeafLists (buildNodeProd e.1 e.2)).map coeM).sum) =
      fun e => prodIdsM e.2 from funext fun e => prodLeaf_ids e.1 e.2]
  rfl

theorem lobLeaf_ids (k : DimKey) (d : LobData) :
    ((lobLeafLists (buildNodeLob k d)).map coeM).sum = lobIdsM d := by
  simp only [lobLeafLists, buildNodeLob, List.flatMap_map]
  rw [sum_map_flatMap (fun e : DimKey × CobData =>
    cobLeafLists (buildNodeCob e.1 e.2)) coeM d.children]
  rw [show (fun e : DimKey × CobData =>
      ((cobLeafLists (buildNodeCob e.1 e.2)).map coeM).sum) =
      fun e => cobIdsM e.2 from funext fun e => cobLeaf_ids e.1 e.2]
  rfl

theorem forest_ids (t : List (DimKey × LobData)) :
    ((forestLeafLists (t.map fun e => buildNodeLob e.1 e.2)).map coeM).sum =
      asum lobIdsM t := by
  simp only [forestLeafLists, List.flatMap_map]
  rw [sum_map_flatMap (fun e : DimKey × LobData =>
    lobLeafLists (buildNodeLob e.1 e.2)) coeM t]
  rw [show (fun e : DimKey × LobData =>
      ((lobLeafLists (buildNodeLob e.1 e.2)).map coeM).sum) =
      fun e => lobIdsM e.2 from funext fun e => lobLeaf_ids e.1 e.2]
  rfl

theorem mppSub_mono (ext : List String) {ids : List String} {d : MppData}
    (h : MppSub ids d) : MppSub (ids ++ ext) d :=
  h.trans (List.sublist_append_left ids ext)

theorem subSub_mono (ext : List String) {ids : List String} {d : SubData}
    (h : SubSub ids d) : SubSub (ids ++ ext) d :=
  fun e he => mppSub_mono ext (h e he)

theorem prodSub_mono (ext : List String) {ids : List String} {d : ProdData}
    (h : ProdSub ids d) : ProdSub (ids ++ ext) d :=
  fun e he => subSub_mono ext (h e he)

theorem cobSub_mono (ext : List String) {ids : List String} {d : CobData}
    (h : CobSub ids d) : CobSub (ids ++ ext) d :=
  fun e he => prodSub_mono ext (h e he)

theorem lobSub_mono (ext : List String) {ids : List String} {d : LobData}
    (h : LobSub ids d) : LobSub (ids ++ ext) d :=
  fun e he => cobSub_mono ext (h e he)

theorem mppSub_default {ids : List String} : MppSub ids (⟨0, []⟩ : MppData) :=
  List.nil_sublist ids

theorem mppSub_upd (r : FactRow) {ids : List String} (v : MppData)
    (h : MppSub ids v) :
    MppSub (ids ++ [r.id]) ⟨v.gwp + r.gwp, v.breakdown_ids ++ [r.id]⟩ :=
  List.Sublist.append h (List.Sublist.refl [r.id])

theorem subSub_upd (r : FactRow) {ids : List String} (v : SubData)
    (h : SubSub ids v) :
    SubSub (ids ++ [r.id]) ⟨v.gwp + r.gwp, insMpp r v.children⟩ :=
  forall_updA (MppSub ids) (MppSub (ids ++ [r.id])) r.mpp ⟨0, []⟩
    (fun d => ⟨d.gwp + r.gwp, d.breakdown_ids ++ [r.id]⟩)
    (mppSub_upd r ⟨0, []⟩ mppSub_default) (fun v h => mppSub_upd r v h)
    (fun _ h => mppSub_mono [r.id] h) v.children h

theorem prodSub_upd (r : FactRow) {ids : List String} (v : ProdData)
    (h : ProdSub ids v) :
    ProdSub (ids ++ [r.id]) ⟨v.gwp + r.gwp, insSub r v.children⟩ :=
  forall_updA (SubSub ids) (SubSub (ids ++ [r.id])) r.sub_product ⟨0, []⟩
    (fun d => ⟨d.gwp + r.gwp, insMpp r d.children⟩)
    (subSub_upd r ⟨0, []⟩ (by intro e he; simp at he))
    (fun v h => subSub_upd r v h)
    (fun _ h => subSub_mono [r.id] h) v.children h

theorem cobSub_upd (r : FactRow) {ids : List String} (v : CobData)
    (h : CobSub ids v) :
    CobSub (ids ++ [r.id]) ⟨v.gwp + r.gwp, insProd r v.children⟩ :=
  forall_updA (ProdSub ids) (ProdSub (ids ++ [r.id])) r.product ⟨0, []⟩
    (fun d => ⟨d.gwp + r.gwp, insSub r d.children⟩)
    (prodSub_upd r ⟨0, []⟩ (by intro e he; simp at he))
    (fun v h => prodSub_upd r v h)
    (fun _ h => prodSub_mono [r.id] h) v.children h

theorem lobSub_upd (r : FactRow) {ids : List String} (v : LobData)
    (h : LobSub ids v) :
    LobSub (ids ++ [r.id]) ⟨v.gwp + r.gwp, insCob r v.children⟩ :=
  forall_updA (CobSub ids) (CobSub (ids ++ [r.id])) r.cob ⟨0, []⟩
    (fun d => ⟨d.gwp + r.gwp, insProd r d.children⟩)
    (cobSub_upd r ⟨0, []⟩ (by intro e he; simp at he))
    (fun v h => cobSub_upd r v h)
    (fun _ h => cobSub_mono [r.id] h) v.children h

theorem treeSub_insLob (r : FactRow) (ids : List String)
    (t : List (DimKey × LobData)) (h : TreeSub ids t) :
    TreeSub (ids ++ [r.id]) (insLob r t) :=
  forall_updA (LobSub ids) (LobSub (ids ++ [r.id])) r.lob ⟨0, []⟩
    (fun d => ⟨d.gwp + r.gwp, insCob r d.children⟩)
    (lobSub_upd r ⟨0, []⟩ (by intro e he; simp at he))
    (fun v h => lobSub_upd r v h)
    (fun _ h => lobSub_mono [r.id] h) t h

/-- Every leaf's id list in the built dict is an in-order sub-sequence of
the processed rows' ids. -/
theorem treeSub_buildTreeAux (facts : List FactRow) :
    TreeSub (facts.map FactRow.id) (buildTreeAux facts) := by
  suffices h : ∀ t ids, TreeSub ids t →
      TreeSub (ids ++ facts.map FactRow.id)
        (facts.foldl (fun t r => insLob r t) t) by
    have h0 := h [] [] (by intro e he; simp at he)
    simpa [buildTreeAux] using h0
  induction facts with
  | nil => intro t ids h; simpa using h
  | cons r rs ih =>
    intro t ids h
    have h2 := ih (insLob r t) (ids ++ [r.id]) (treeSub_insLob r ids t h)
    simpa [List.append_assoc] using h2

theorem subLeaf_sublist {ids : List String} (k : DimKey) (d : SubData)
    (h : SubSub ids d) :
    ∀ l ∈ subLeafLists (buildNodeSub k d), l.Sublist ids := by
  intro l hl
  simp only [subLeafLists, buildNodeSub, List.map_map, List.mem_map] at hl
  obtain ⟨e, he, rfl⟩ := hl
  exact h e he

theorem prodLeaf_sublist {ids : List String} (k : DimKey) (d : ProdData)
    (h : ProdSub ids d) :
    ∀ l ∈ prodLeafLists (buildNodeProd k d), l.Sublist ids := by
  intro l hl
  simp only [prodLeafLists, buildNodeProd, List.flatMap_map,
    List.mem_flatMap] at hl
  obtain ⟨e, he, hl⟩ := hl
  exact subLeaf_sublist e.1 e.2 (h e he) l hl

theorem cobLeaf_sublist {ids : List String} (k : DimKey) (d : CobData)
    (h : CobSub ids d) :
    ∀ l ∈ cobLeafLists (buildNodeCob k d), l.Sublist ids := by
  intro l hl
  simp only [cobLeafLists, buildNodeCob, List.flatMap_map,
    List.mem_flatMap] at hl
  obtain ⟨e, he, hl⟩ := hl
  exact prodLeaf_sublist e.1 e.2 (h e he) l hl

theorem lobLeaf_sublist {ids : List String} (k : DimKey) (d : LobData)
    (h : LobSub ids d) :
    ∀ l ∈ lobLeafLists (buildNodeLob k d), l.Sublist ids := by
  intro l hl
  simp only [lobLeafLists, buildNodeLob, List.flatMap_map,
    List.mem_flatMap] at hl
  obtain ⟨e, he, hl⟩ := hl
  exact cobLeaf_sublist e.1 e.2 (h e he) l hl

theorem forestLeaf_sublist {ids : List String} (t : List (DimKey × LobData))
    (h : TreeSub ids t) :
    ∀ l ∈ forestLeafLists (t.map fun e => buildNodeLob e.1 e.2),
      l.Sublist ids := by
  intro l hl
  simp only [forestLeafLists, List.flatMap_map, List.mem_flatMap] at hl
  obtain ⟨e, he, hl⟩ := hl
  exact lobLeaf_sublist e.1 e.2 (h e he) l hl

/-- C7: the leaves' `breakdown_ids` lists partition the input rows'
identifiers — their concatenation is a permutation of the input id list
(coverage, no omission, no duplication), each list preserves encounter
order (it is a sub-sequence of the input ids), and under distinct input
ids the lists are pairwise disjoint and individually duplicate-free, so
each id lands in exactly one leaf.  Only the leaf node type (`NodeMpp`)
carries a `gwp_breakdown_ids` field. -/
theorem C7_breakdown_partition (facts : List FactRow)
    (h : (facts.map FactRow.id).Nodup) :
    (forestLeafLists (get_member_gwp_tree facts).1).flatten.Perm
      (facts.map FactRow.id) ∧
    (∀ l ∈ forestLeafLists (get_member_gwp_tree facts).1,
      l.Sublist (facts.map FactRow.id)) ∧
    List.Pairwise List.Disjoint
      (forestLeafLists (get_member_gwp_tree facts).1) ∧
    (∀ l ∈ forestLeafLists (get_member_gwp_tree facts).1, l.Nodup) := by
  have hperm : (forestLeafLists (get_member_gwp_tree facts).1).flatten.Perm
      (facts.map FactRow.id) := by
    by_cases he : facts = []
    · subst he
      simp [get_member_gwp_tree, forestLeafLists]
    · have hfst : (get_member_gwp_tree facts).1 =
          (buildTreeAux facts).map (fun e => buildNodeLob e.1 e.2) := by
        simp [get_member_gwp_tree, he]
      rw [hfst, ← Multiset.coe_eq_coe]
      exact (coe_flatten_eq _).trans
        ((forest_ids (buildTreeAux facts)).trans (buildTreeAux_ids facts))
  have hsub : ∀ l ∈ forestLeafLists (get_member_gwp_tree facts).1,
      l.Sublist (facts.map FactRow.id) := by
    by_cases he : facts = []
    · subst he
      intro l hl
      simp [get_member_gwp_tree, forestLeafLists] at hl
    · have hfst : (get_member_gwp_tree facts).1 =
          (buildTreeAux facts).map (fun e => buildNodeLob e.1 e.2) := by
        simp [get_member_gwp_tree, he]
      rw [hfst]
      exact forestLeaf_sublist _ (treeSub_buildTreeAux facts)
  have hnodup : (forestLeafLists (get_member_gwp_tree facts).1).flatten.Nodup :=
    hperm.nodup_iff.mpr h
  rw [List.nodup_flatten] at hnodup
  exact ⟨hperm, hsub, hnodup.2, hnodup.1⟩

/-- Witness for C7 at a concrete input: three rows with distinct ids, two
of them sharing the same 5-tuple path. -/
theorem C7_breakdown_partition_witness :
    (forestLeafLists (get_member_gwp_tree factsC7).1).flatten.Perm
      (factsC7.map FactRow.id) ∧
    (∀ l ∈ forestLeafLists (get_member_gwp_tree factsC7).1,
      l.Sublist (factsC7.map FactRow.id)) ∧
    List.Pairwise List.Disjoint
      (forestLeafLists (get_member_gwp_tree factsC7).1) ∧
    (∀ l ∈ forestLeafLists (get_member_gwp_tree factsC7).1, l.Nodup) :=
  C7_breakdown_partition factsC7 (by decide)
